import Mathlib

/-!
Verification development for the master/worker batch-compute coordinator
(`lab2.c`, `lab3.c`): the dispatch / failure-detection / redistribution
protocol, the wire framing, and the workers' chunk processing.

Machine integers are modelled as `Nat`/`Int`; buffers as lists; the MPI
arrival of a worker's reply as a boolean oracle `arrives : Nat → Bool`.
-/

/-! ### Configurable parameters (lab2.c lines 8-10, lab3.c lines 10-15) -/

def DATA_SIZE : Nat := 1000000

def CHUNK_SIZE : Nat := 100000

def HEARTBEAT_TIMEOUT : Nat := 5

def NUM_THREADS : Nat := 4

/-! ### Codec

The sources call zlib's `compress`/`uncompress`, an external library whose
code is not part of this repository.  Modelled from the spec: `Encode` is a
deterministic compressed representation (a run-length scheme), `Decode`
reconstructs the original bytes given the known uncompressed length and
fails with `CorruptPayload` if the stream is malformed or the declared
length does not match the decompressed output size. -/

inductive CodecError where
  | corruptPayload
deriving DecidableEq

namespace Codec

/-- Run-length encode a maximal run of `cnt` copies of `cur` followed by
the remaining input. -/
def encodeRuns : Nat → Nat → List Nat → List Nat
  | cnt, cur, [] => [cnt, cur]
  | cnt, cur, b :: bs =>
    if b = cur then encodeRuns (cnt + 1) cur bs
    else cnt :: cur :: encodeRuns 1 b bs

/-- Modelled from the spec: `Encode(bytes) -> bytes`, a deterministic
compressed representation of the input byte sequence. -/
def Encode : List Nat → List Nat
  | [] => []
  | b :: bs => encodeRuns 1 b bs

/-- Decode a run-length stream; `none` on malformed input (odd-length
stream or a zero run count). -/
def decodeRuns : List Nat → Option (List Nat)
  | [] => some []
  | [_] => none
  | cnt :: b :: rest =>
    if cnt = 0 then none
    else (decodeRuns rest).map (fun tail => List.replicate cnt b ++ tail)

/-- Modelled from the spec: `Decode(bytes, originalLength) -> bytes`
reconstructs the exact original bytes, failing with `CorruptPayload` when
the compressed stream is malformed or the declared length does not match
the decompressed output size. -/
def Decode (p : List Nat) (originalLength : Nat) : Except CodecError (List Nat) :=
  match decodeRuns p with
  | none => .error .corruptPayload
  | some out => if out.length = originalLength then .ok out else .error .corruptPayload

lemma decodeRuns_encodeRuns (bs : List Nat) :
    ∀ (cnt cur : Nat), cnt ≠ 0 →
      decodeRuns (encodeRuns cnt cur bs) = some (List.replicate cnt cur ++ bs) := by
  induction bs with
  | nil =>
    intro cnt cur h
    simp [encodeRuns, decodeRuns, h]
  | cons b bs ih =>
    intro cnt cur h
    by_cases hb : b = cur
    · subst hb
      rw [encodeRuns, if_pos rfl, ih (cnt + 1) b (by omega)]
      have : List.replicate (cnt + 1) b = List.replicate cnt b ++ [b] := by
        rw [List.replicate_succ']
      simp [this]
    · rw [encodeRuns, if_neg hb]
      rw [show decodeRuns (cnt :: cur :: encodeRuns 1 b bs)
            = if cnt = 0 then none
              else (decodeRuns (encodeRuns 1 b bs)).map
                (fun tail => List.replicate cnt cur ++ tail) from rfl]
      rw [if_neg h, ih 1 b (by omega)]
      simp

end Codec

/-! ### Master-side dispatch model (lab2.c, identically structured in lab3.c)

Workers are the MPI ranks `1 .. size-1`.  The `failed_nodes` array is a
map `Nat → Bool` (initially all `false`).  The distribution loops read
chunk `chunk_index` and send it to the next non-failed worker; the receive
loop consults an oracle `arrives i` telling whether worker `i`'s reply
completed before the heartbeat deadline. -/

def workers (size : Nat) : List Nat := List.range' 1 (size - 1)

def initialFailed : Nat → Bool := fun _ => false

/-- `for (i = 1; i < size; i++) if (failed_nodes[i] == 0) { send chunk_index to i; chunk_index++; }`
(lab2.c lines 46-64 and 110-125).  Returns the list of `(worker, chunk_index)`
pairs in send order. -/
def sendLoop (failed : Nat → Bool) : List Nat → Nat → List (Nat × Nat)
  | [], _ => []
  | i :: rest, ci =>
    if failed i then sendLoop failed rest ci
    else (i, ci) :: sendLoop failed rest (ci + 1)

/-- The initial distribution (lab2.c lines 45-64): nothing has failed yet,
`chunk_index` starts at 0. -/
def initialSends (size : Nat) : List (Nat × Nat) := sendLoop initialFailed (workers size) 0

/-- The receive loop (lab2.c lines 71-101): for each not-yet-failed worker,
wait with heartbeat; on arrival record the worker as completed, on timeout
set `failed_nodes[i] = 1`.  Returns the updated failure map and the list of
workers whose replies arrived. -/
def recvLoop (arrives : Nat → Bool) : List Nat → (Nat → Bool) → ((Nat → Bool) × List Nat)
  | [], failed => (failed, [])
  | i :: rest, failed =>
    if failed i then recvLoop arrives rest failed
    else if arrives i then
      let r := recvLoop arrives rest failed
      (r.1, i :: r.2)
    else
      recvLoop arrives rest (fun j => if j = i then true else failed j)

def recvResult (size : Nat) (arrives : Nat → Bool) : (Nat → Bool) × List Nat :=
  recvLoop arrives (workers size) initialFailed

/-- The failure map after the receive loop. -/
def failedAfter (size : Nat) (arrives : Nat → Bool) : Nat → Bool :=
  (recvResult size arrives).1

/-- Workers whose replies arrived before the deadline. -/
def completedWorkers (size : Nat) (arrives : Nat → Bool) : List Nat :=
  (recvResult size arrives).2

/-- `num_failed_nodes` after the receive loop. -/
def numFailed (size : Nat) (arrives : Nat → Bool) : Nat :=
  (workers size).countP (failedAfter size arrives)

/-- The chunk a worker was sent in the initial distribution. -/
def chunkOf (size i : Nat) : Option Nat := (initialSends size).lookup i

/-- Chunks whose processed result the master actually received. -/
def completedChunks (size : Nat) (arrives : Nat → Bool) : List Nat :=
  (completedWorkers size arrives).filterMap (chunkOf size)

/-- Chunks that were sent to a worker later marked failed (their results
were never received). -/
def lostChunks (size : Nat) (arrives : Nat → Bool) : List Nat :=
  ((workers size).filter (failedAfter size arrives)).filterMap (chunkOf size)

/-- The redistribution round (lab2.c lines 104-126): when at least one node
failed, reset `chunk_index = 0` and run the same send loop over the
non-failed workers. -/
def redistSends (size : Nat) (arrives : Nat → Bool) : List (Nat × Nat) :=
  if 0 < numFailed size arrives then sendLoop (failedAfter size arrives) (workers size) 0
  else []

/-- The chunk indices re-sent during redistribution. -/
def redistChunks (size : Nat) (arrives : Nat → Bool) : List Nat :=
  (redistSends size arrives).map Prod.snd

/-- Workers targeted by the redistribution round. -/
def redistTargets (size : Nat) (arrives : Nat → Bool) : List Nat :=
  (redistSends size arrives).map Prod.fst

/-- After redistribution the master prints "Data processing completed." and
returns 0, unconditionally: the run always ends as a success
(lab2.c line 128, lab3.c line 195). -/
def masterCompletionPrinted : Bool := true

/-! ### Heartbeat monitor (lab2.c lines 80-98, lab3.c lines 141-163)

The receive wait is a poll loop: test the request, sleep 10ms, give up once
`HEARTBEAT_TIMEOUT` seconds of wall clock have elapsed.  Time is modelled
in 10ms poll ticks; `arrived k` says whether the reply has landed by poll
number `k`. -/

def POLL_INTERVAL_MS : Nat := 10

/-- Number of 10ms polls that fit in the 5-second deadline. -/
def maxPolls : Nat := HEARTBEAT_TIMEOUT * 1000 / POLL_INTERVAL_MS

inductive MonitorResult where
  | arrived
  | timedOut
deriving DecidableEq

def pollLoop (arrived : Nat → Bool) : Nat → Nat → MonitorResult
  | _, 0 => .timedOut
  | k, fuel + 1 => if arrived k then .arrived else pollLoop arrived (k + 1) fuel

/-- `while (!flag && elapsed < HEARTBEAT_TIMEOUT) { MPI_Test; usleep(10000); }`. -/
def AwaitWithDeadline (arrived : Nat → Bool) : MonitorResult :=
  pollLoop arrived 0 maxPolls

/-- The statements executed on the timeout branch, in source order
(lab2.c lines 93-97): `failed_nodes[i] = 1; num_failed_nodes++;
MPI_Cancel(&recv_request); MPI_Request_free(&recv_request);`. -/
inductive MasterAction where
  | markFailed
  | incrementFailedCount
  | cancelReceive
  | freeRequest
deriving DecidableEq

def timeoutActions : List MasterAction :=
  [.markFailed, .incrementFailedCount, .cancelReceive, .freeRequest]

/-! ### Wire message as transmitted (lab2.c lines 54-56 and 151-153)

`MPI_Isend(compressed_data, compressed_size, MPI_UNSIGNED_CHAR, dest, 0, ...)`:
the transmitted unit is the raw compressed buffer, its transport byte
count, the destination rank, and the constant tag 0 — these are all the
fields the receiver can observe. -/

structure IsendArgs where
  payload : List Nat
  count : Nat
  dest : Nat
  tag : Nat
deriving DecidableEq

def isendArgs (payload : List Nat) (dest : Nat) : IsendArgs :=
  { payload := payload, count := payload.length, dest := dest, tag := 0 }

/-! ### Master handling of an arrived reply (lab2.c lines 87-91, lab3.c lines 148-154)

`uncompress(...)` is called and its return status is discarded; whatever
the decode outcome, the master proceeds as on success — the worker stays
alive and nothing is recorded as lost. -/

inductive ArrivalOutcome where
  | treatedCompleted
  | markedLost
deriving DecidableEq

def masterArrivalOutcome (payload : List Nat) (originalLength : Nat) : ArrivalOutcome :=
  match Codec.Decode payload originalLength with
  | .ok _ => .treatedCompleted
  | .error _ => .treatedCompleted

/-! ### Worker-side chunk processing (lab2.c lines 13-21, lab3.c lines 29-73)

Elements are `Int`; thread `t` of `NUM_THREADS` works on
`[t * (len / NUM_THREADS), end_t)` where the last thread's `end_t` is
`len` and every other thread's is `(t+1) * (len / NUM_THREADS)`.  The
post-join state of the buffer is modelled by applying the threads'
disjoint sub-range updates in sequence. -/

def taskStart (len t : Nat) : Nat := t * (len / NUM_THREADS)

def taskEnd (len t : Nat) : Nat :=
  if t = NUM_THREADS - 1 then len else (t + 1) * (len / NUM_THREADS)

/-- `for (i = start_idx; i < end_idx; i++) data[i] = data[i] * rank;`
(lab3.c lines 33-36), acting on the suffix of the buffer whose first
element has absolute index `i`. -/
def thread_process (rank : Int) (s e : Nat) : Nat → List Int → List Int
  | _, [] => []
  | i, x :: xs => (if s ≤ i ∧ i < e then x * rank else x) :: thread_process rank s e (i + 1) xs

/-- `process_data_multithreaded` (lab3.c lines 43-73): spawn `NUM_THREADS`
threads over the fixed sub-ranges computed from the buffer length, join
all. -/
def process_data_multithreaded (rank : Int) (d : List Int) : List Int :=
  (List.range NUM_THREADS).foldl
    (fun acc t => thread_process rank (taskStart d.length t) (taskEnd d.length t) 0 acc) d

/-- `process_data` (lab2.c lines 13-21): sequentially multiply every
element of the chunk by the rank. -/
def process_data (rank : Int) (d : List Int) : List Int :=
  d.map (fun x => x * rank)

/-! ### ChunkStore partition

The sources fix `DATA_SIZE = 1000000`, `CHUNK_SIZE = 100000` (exactly
divisible) and contain no chunking code for other sizes.  Modelled from
the spec: ChunkStore's partition of `[0, N)` into `ceil(N/chunkSize)`
chunks, all of length `chunkSize` except the final one, whose length is
`N - (numChunks-1)*chunkSize`. -/

def numChunks (N c : Nat) : Nat := (N + c - 1) / c

def chunkOffset (c k : Nat) : Nat := k * c

def chunkLen (N c k : Nat) : Nat :=
  if k = numChunks N c - 1 then N - (numChunks N c - 1) * c else c

/-! ### Index arithmetic of the distribution loops (claim C10)

Each send reads `full_data[chunk_index * CHUNK_SIZE]` onward.  The reads
performed by lab2's loops are the successive `chunk_index` values of
`sendLoop`; lab3's redistribution loop additionally breaks once
`chunk_index * CHUNK_SIZE >= DATA_SIZE` (lab3.c line 190). -/

def lab2DistReads (failed : Nat → Bool) (size : Nat) : List Nat :=
  (sendLoop failed (workers size) 0).map Prod.snd

/-- lab3.c lines 175-192: send, `chunk_index++`, then
`if (chunk_index * CHUNK_SIZE >= DATA_SIZE) break;`. -/
def lab3RedistLoop (failed : Nat → Bool) : List Nat → Nat → List (Nat × Nat)
  | [], _ => []
  | i :: rest, ci =>
    if failed i then lab3RedistLoop failed rest ci
    else (i, ci) ::
      (if DATA_SIZE ≤ (ci + 1) * CHUNK_SIZE then [] else lab3RedistLoop failed rest (ci + 1))

def lab3RedistReads (failed : Nat → Bool) (size : Nat) : List Nat :=
  (lab3RedistLoop failed (workers size) 0).map Prod.snd

/-- Number of workers still alive under the failure map. -/
def numAlive (failed : Nat → Bool) (size : Nat) : Nat :=
  (workers size).countP (fun i => !failed i)

/-! ### Helper lemmas -/

/-- A worker already marked failed is skipped by every pass of the
distribution loop. -/
lemma sendLoop_not_mem_of_failed (failed : Nat → Bool) (w : Nat) (hw : failed w = true) :
    ∀ (ws : List Nat) (ci : Nat), w ∉ (sendLoop failed ws ci).map Prod.fst := by
  intro ws
  induction ws with
  | nil => intro ci; simp [sendLoop]
  | cons i rest ih =>
    intro ci
    by_cases hi : failed i
    · simpa [sendLoop, hi] using ih ci
    · have hne : w ≠ i := by
        intro h
        rw [h] at hw
        simp [hw] at hi
      simpa [sendLoop, hi, hne] using ih (ci + 1)

/-- The receive loop never clears a failure mark: `failed_nodes[i]` is only
ever written to 1. -/
lemma recvLoop_failed_mono (arrives : Nat → Bool) (w : Nat) :
    ∀ (ws : List Nat) (failed : Nat → Bool), failed w = true →
      (recvLoop arrives ws failed).1 w = true := by
  intro ws
  induction ws with
  | nil => intro failed hw; simpa [recvLoop] using hw
  | cons i rest ih =>
    intro failed hw
    by_cases hi : failed i
    · simpa [recvLoop, hi] using ih failed hw
    · by_cases ha : arrives i
      · simpa [recvLoop, hi, ha] using ih failed hw
      · have hstep : recvLoop arrives (i :: rest) failed
            = recvLoop arrives rest (fun j => if j = i then true else failed j) := by
          simp only [recvLoop]
          rw [if_neg hi, if_neg ha]
        rw [hstep]
        exact ih _ (by by_cases hwi : w = i <;> simp [hwi, hw])

/-- Every `chunk_index` value read by a distribution pass is below the
starting index plus the number of non-failed workers scanned. -/
lemma sendLoop_reads_lt (failed : Nat → Bool) :
    ∀ (ws : List Nat) (ci r : Nat), r ∈ (sendLoop failed ws ci).map Prod.snd →
      ci ≤ r ∧ r < ci + ws.countP (fun i => !failed i) := by
  intro ws
  induction ws with
  | nil => intro ci r hr; simp [sendLoop] at hr
  | cons i rest ih =>
    intro ci r hr
    by_cases hi : failed i
    · have hstep : sendLoop failed (i :: rest) ci = sendLoop failed rest ci := by
        simp [sendLoop, hi]
      rw [hstep] at hr
      have hmem := ih ci r hr
      have hcount : (i :: rest).countP (fun j => !failed j)
          = rest.countP (fun j => !failed j) := by
        simp [List.countP_cons, hi]
      rw [hcount]
      omega
    · have hstep : sendLoop failed (i :: rest) ci
          = (i, ci) :: sendLoop failed rest (ci + 1) := by
        simp [sendLoop, hi]
      rw [hstep] at hr
      have hcount : (i :: rest).countP (fun j => !failed j)
          = rest.countP (fun j => !failed j) + 1 := by
        simp [List.countP_cons, hi]
      rw [hcount]
      rcases (by simpa using hr :
          r = ci ∨ r ∈ (sendLoop failed rest (ci + 1)).map Prod.snd) with h | h
      · omega
      · have hmem := ih (ci + 1) r h
        omega

/-! ### Claims -/

/-- C2: decoding the encoding of any byte sequence `b` (the empty sequence
included) with `b`'s original length returns exactly `b`:
`Decode(Encode(b), len(b)) == b`. -/
theorem codec_roundtrip (b : List Nat) :
    Codec.Decode (Codec.Encode b) b.length = .ok b := by
  cases b with
  | nil => rfl
  | cons x xs =>
    rw [Codec.Encode, Codec.Decode, Codec.decodeRuns_encodeRuns xs 1 x (by omega)]
    simp

/-- C1: the redistribution pass restarts `chunk_index` at 0 and walks the
alive workers, ignoring which chunks completed.  Concrete run, 3 processes
(workers 1 and 2), worker 1 replies and worker 2 times out: chunk 0 is
Completed, chunk 1 is lost, yet redistribution resends exactly chunk 0 —
an already-completed chunk is resent and the lost chunk 1 is skipped. -/
theorem redistribution_ignores_completed_chunks :
    completedChunks 3 (fun i => i == 1) = [0] ∧
    lostChunks 3 (fun i => i == 1) = [1] ∧
    redistChunks 3 (fun i => i == 1) = [0] ∧
    0 ∈ completedChunks 3 (fun i => i == 1) ∧
    1 ∉ redistChunks 3 (fun i => i == 1) := by
  decide

/-- C3: concrete run with a single worker (2 processes) that times out:
the worker is marked failed, no chunk is completed, chunk 0 is lost,
redistribution sends nothing, and the master still ends the run printing
its unconditional completion message — there is no reassembled output and
no exhaustion report naming the incomplete chunks anywhere in the code. -/
theorem master_completes_without_results :
    completedChunks 2 (fun _ => false) = [] ∧
    failedAfter 2 (fun _ => false) 1 = true ∧
    redistSends 2 (fun _ => false) = [] ∧
    lostChunks 2 (fun _ => false) = [0] ∧
    masterCompletionPrinted = true := by
  decide

/-- C4: worker failure is monotone.  The receive loop only ever writes
`failed_nodes[i] = 1` (never back to 0), every pass of the distribution
loop skips workers whose failure flag is set, and in particular the
redistribution round never targets a worker marked failed during the
receive round. -/
theorem failed_worker_never_reassigned
    (failed : Nat → Bool) (arrives : Nat → Bool) (ws : List Nat) (ci w : Nat) :
    (failed w = true → (recvLoop arrives ws failed).1 w = true) ∧
    (failed w = true → w ∉ (sendLoop failed ws ci).map Prod.fst) ∧
    (∀ size, failedAfter size arrives w = true → w ∉ redistTargets size arrives) := by
  refine ⟨fun hw => recvLoop_failed_mono arrives w ws failed hw,
          fun hw => sendLoop_not_mem_of_failed failed w hw ws ci,
          fun size hw => ?_⟩
  rw [redistTargets, redistSends]
  by_cases h : 0 < numFailed size arrives
  · simpa [h] using sendLoop_not_mem_of_failed (failedAfter size arrives) w hw (workers size) 0
  · simp [h]

/-- C4 witness: with workers `[1,2,3]`, worker 2 already failed and no
replies arriving, worker 2 stays failed through the receive loop, is never
targeted by a distribution pass, and (in the 3-process run where worker 1
times out) the timed-out worker 1 is not targeted by redistribution. -/
theorem failed_worker_never_reassigned_witness :
    (recvLoop (fun _ => false) [1, 2, 3] (fun j => decide (j = 2))).1 2 = true ∧
    2 ∉ (sendLoop (fun j => decide (j = 2)) [1, 2, 3] 0).map Prod.fst ∧
    1 ∉ redistTargets 3 (fun _ => false) :=
  ⟨(failed_worker_never_reassigned (fun j => decide (j = 2)) (fun _ => false) [1, 2, 3] 0 2).1
      (by decide),
   (failed_worker_never_reassigned (fun j => decide (j = 2)) (fun _ => false) [1, 2, 3] 0 2).2.1
      (by decide),
   (failed_worker_never_reassigned (fun j => decide (j = 2)) (fun _ => false) [1, 2, 3] 0 1).2.2
      3 (by decide)⟩

/-- C5: the unit actually handed to `MPI_Isend` for a chunk transfer
consists of the compressed payload, its transport byte count, the
destination rank and the constant tag 0 — evaluated here on a concrete
chunk, the transmitted fields contain no chunkID and no
originalByteLength; nothing in the message itself identifies the chunk. -/
theorem wire_message_no_chunk_id :
    isendArgs (Codec.Encode [5, 5, 5]) 1
      = { payload := [3, 5], count := 2, dest := 1, tag := 0 } ∧
    ∀ (p : List Nat) (i : Nat), (isendArgs p i).tag = 0 :=
  ⟨rfl, fun _ _ => rfl⟩

/-- C8: `Decode` rejects both a malformed stream and a declared-length
mismatch with `CorruptPayload`, but the master's arrival handler discards
the decode status (the `uncompress` return value is ignored): the reply is
treated as a completion, never as a lost assignment. -/
theorem corrupt_payload_treated_as_completed :
    Codec.Decode [5] CHUNK_SIZE = .error .corruptPayload ∧
    masterArrivalOutcome [5] CHUNK_SIZE = .treatedCompleted ∧
    Codec.Decode (Codec.Encode [1, 2, 3]) 7 = .error .corruptPayload ∧
    masterArrivalOutcome (Codec.Encode [1, 2, 3]) 7 = .treatedCompleted ∧
    ArrivalOutcome.treatedCompleted ≠ ArrivalOutcome.markedLost :=
  ⟨rfl, rfl, rfl, rfl, by decide⟩

/-! ### Heartbeat monitor lemmas and claim C6 -/

lemma pollLoop_arrived (arrived : Nat → Bool) :
    ∀ (fuel k : Nat), (∃ j, j < fuel ∧ arrived (k + j) = true) →
      pollLoop arrived k fuel = .arrived := by
  intro fuel
  induction fuel with
  | zero =>
    intro k h
    obtain ⟨j, hj, _⟩ := h
    omega
  | succ fuel ih =>
    intro k h
    obtain ⟨j, hj, ha⟩ := h
    by_cases hk : arrived k
    · simp [pollLoop, hk]
    · have hj0 : j ≠ 0 := by
        intro h0
        rw [h0] at ha
        simp at ha
        exact hk (by simpa using ha)
      obtain ⟨j', rfl⟩ : ∃ j', j = j' + 1 := ⟨j - 1, by omega⟩
      rw [pollLoop, if_neg hk]
      exact ih (k + 1) ⟨j', by omega, by rw [show k + 1 + j' = k + (j' + 1) by omega]; exact ha⟩

lemma pollLoop_timedOut (arrived : Nat → Bool) :
    ∀ (fuel k : Nat), (∀ j, j < fuel → arrived (k + j) = false) →
      pollLoop arrived k fuel = .timedOut := by
  intro fuel
  induction fuel with
  | zero => intro k _; rfl
  | succ fuel ih =>
    intro k h
    have hk : arrived k = false := by simpa using h 0 (by omega)
    rw [pollLoop, if_neg (by simp [hk])]
    exact ih (k + 1) fun j hj => by
      have := h (j + 1) (by omega)
      rwa [show k + (j + 1) = k + 1 + j by omega] at this

/-- C6 (amended): the monitor polls the in-flight receive in bounded 10ms
steps; it reports `arrived` as soon as a poll within the 5-second window
(500 polls of 10ms) sees the reply and `timedOut` when no poll within the
window does.  On the timeout branch the worker is marked Failed first and
the pending receive is cancelled (and its request freed) afterwards — the
cancel does happen during the same timeout handling, but after, not
before, the failure mark. -/
theorem heartbeat_monitor_behaviour (arrived : Nat → Bool) :
    ((∃ k, k < maxPolls ∧ arrived k = true) → AwaitWithDeadline arrived = .arrived) ∧
    ((∀ k, k < maxPolls → arrived k = false) → AwaitWithDeadline arrived = .timedOut) ∧
    HEARTBEAT_TIMEOUT = 5 ∧ POLL_INTERVAL_MS = 10 ∧ maxPolls = 500 ∧
    MasterAction.cancelReceive ∈ timeoutActions ∧
    timeoutActions.indexOf MasterAction.markFailed
      < timeoutActions.indexOf MasterAction.cancelReceive := by
  refine ⟨?_, ?_, rfl, rfl, rfl, by decide, by decide⟩
  · intro h
    obtain ⟨k, hk, ha⟩ := h
    exact pollLoop_arrived arrived maxPolls 0 ⟨k, hk, by simpa using ha⟩
  · intro h
    exact pollLoop_timedOut arrived maxPolls 0 fun j hj => by simpa using h j hj

/-- C6 witness: a reply that is present at the very first poll is reported
`arrived`; a reply that never lands within the window is reported
`timedOut`. -/
theorem heartbeat_monitor_behaviour_witness :
    AwaitWithDeadline (fun _ => true) = .arrived ∧
    AwaitWithDeadline (fun _ => false) = .timedOut :=
  ⟨(heartbeat_monitor_behaviour (fun _ => true)).1 ⟨0, by decide, rfl⟩,
   (heartbeat_monitor_behaviour (fun _ => false)).2.1 (fun _ _ => rfl)⟩

/-- C6 counterexample: in the code's timeout branch the statements run in
the order `failed_nodes[i] = 1; num_failed_nodes++; MPI_Cancel;
MPI_Request_free` — the pending receive is NOT cancelled before the worker
is marked failed, refuting the claimed ordering. -/
theorem heartbeat_cancel_order_counterexample :
    ¬ (timeoutActions.indexOf MasterAction.cancelReceive
        < timeoutActions.indexOf MasterAction.markFailed) := by
  decide

/-! ### Chunk partition (claim C7) -/

/-- C7: for positive `datasetSize` and `chunkSize`, the modelled ChunkStore
partition has `ceil(N/c)` chunks (characterized by
`(numChunks-1)*c < N ≤ numChunks*c`), starts at offset 0, gives every
non-final chunk length `c`, gives the final chunk length
`N - (numChunks-1)*c`, and is contiguous: each chunk ends where the next
begins and the final chunk ends exactly at `N` — so the chunks cover
`[0, N)` with no gaps and no overlaps. -/
theorem chunk_partition_correct (N c : Nat) (hc : 0 < c) (hN : 0 < N) :
    0 < numChunks N c ∧
    (numChunks N c - 1) * c < N ∧
    N ≤ numChunks N c * c ∧
    chunkOffset c 0 = 0 ∧
    (∀ k, k + 1 < numChunks N c → chunkLen N c k = c) ∧
    chunkLen N c (numChunks N c - 1) = N - (numChunks N c - 1) * c ∧
    (∀ k, k + 1 < numChunks N c → chunkOffset c k + chunkLen N c k = chunkOffset c (k + 1)) ∧
    chunkOffset c (numChunks N c - 1) + chunkLen N c (numChunks N c - 1) = N := by
  have hdm := Nat.div_add_mod (N + c - 1) c
  have hml : (N + c - 1) % c < c := Nat.mod_lt _ hc
  have h1 : 1 ≤ numChunks N c := by
    rw [numChunks, Nat.le_div_iff_mul_le hc]
    omega
  have hmul : c * numChunks N c + (N + c - 1) % c = N + c - 1 := hdm
  have hcnc : c * 1 ≤ c * numChunks N c := Nat.mul_le_mul_left c h1
  have e1 : (numChunks N c - 1) * c = c * numChunks N c - c := by
    rw [Nat.sub_mul, one_mul, Nat.mul_comm]
  have key1 : (numChunks N c - 1) * c < N := by
    rw [e1]
    omega
  have key2 : N ≤ numChunks N c * c := by
    rw [Nat.mul_comm]
    omega
  refine ⟨h1, key1, key2, by simp [chunkOffset], ?_, ?_, ?_, ?_⟩
  · intro k hk
    rw [chunkLen, if_neg (by omega)]
  · rw [chunkLen, if_pos rfl]
  · intro k hk
    rw [chunkLen, if_neg (by omega), chunkOffset, chunkOffset]
    ring
  · rw [chunkLen, if_pos rfl, chunkOffset]
    omega

/-- C7 witness, the spec's uneven-partition scenario:
`datasetSize = 950000, chunkSize = 100000` gives 10 chunks, the final
chunk (index 9) has length 50000, the others length 100000, and the final
chunk ends exactly at 950000. -/
theorem chunk_partition_witness :
    0 < 100000 ∧ 0 < 950000 ∧
    numChunks 950000 100000 = 10 ∧
    chunkLen 950000 100000 9 = 50000 ∧
    chunkLen 950000 100000 0 = 100000 ∧
    (numChunks 950000 100000 - 1) * 100000 < 950000 ∧
    chunkOffset 100000 (numChunks 950000 100000 - 1)
      + chunkLen 950000 100000 (numChunks 950000 100000 - 1) = 950000 :=
  ⟨by norm_num, by norm_num, by norm_num [numChunks], by norm_num [chunkLen, numChunks],
   (chunk_partition_correct 950000 100000 (by norm_num) (by norm_num)).2.2.2.2.1 0
     (by norm_num [numChunks]),
   (chunk_partition_correct 950000 100000 (by norm_num) (by norm_num)).2.1,
   (chunk_partition_correct 950000 100000 (by norm_num) (by norm_num)).2.2.2.2.2.2.2⟩

/-! ### Worker thread-pool refinement (claim C9) -/

lemma thread_process_get? (rank : Int) (s e : Nat) :
    ∀ (d : List Int) (i j : Nat),
      (thread_process rank s e i d).get? j
        = (d.get? j).map (fun x => if s ≤ i + j ∧ i + j < e then x * rank else x) := by
  intro d
  induction d with
  | nil => intro i j; simp [thread_process]
  | cons x xs ih =>
    intro i j
    cases j with
    | zero => simp [thread_process]
    | succ j =>
      simp only [thread_process, List.get?_cons_succ]
      rw [ih (i + 1) j, show i + 1 + j = i + (j + 1) by omega]

/-- C9: the multithreaded processing of lab3 — contiguous, non-overlapping
sub-ranges of `floor(len/T)` elements each, remainder folded into the last
sub-range, all threads joined — produces exactly the output of the
sequential element-wise transform of lab2: every element multiplied by the
worker's rank. -/
theorem multithreaded_matches_sequential (rank : Int) (d : List Int) :
    process_data_multithreaded rank d = process_data rank d := by
  have hrange : List.range NUM_THREADS = [0, 1, 2, 3] := rfl
  apply List.ext_get?
  intro j
  rw [process_data_multithreaded, hrange]
  simp only [List.foldl_cons, List.foldl_nil]
  rw [thread_process_get?, thread_process_get?, thread_process_get?, thread_process_get?]
  rw [process_data, List.get?_map]
  cases hdj : d.get? j with
  | none => simp
  | some x =>
    have hj : j < d.length := by
      by_contra h
      rw [List.get?_eq_none.mpr (by omega)] at hdj
      exact Option.noConfusion hdj
    have hq4 : d.length / 4 * 4 ≤ d.length := Nat.div_mul_le_self _ _
    simp only [Option.map_some', Nat.zero_add]
    congr 1
    simp only [taskStart, taskEnd, NUM_THREADS]
    norm_num
    split_ifs <;> first | rfl | (exfalso; omega)

/-! ### Index bounds of the distribution loops (claim C10) -/

lemma lab3RedistLoop_reads_inbounds (failed : Nat → Bool) :
    ∀ (ws : List Nat) (ci : Nat), ci * CHUNK_SIZE < DATA_SIZE →
      ∀ r ∈ (lab3RedistLoop failed ws ci).map Prod.snd, r * CHUNK_SIZE < DATA_SIZE := by
  intro ws
  induction ws with
  | nil => intro ci _ r hr; simp [lab3RedistLoop] at hr
  | cons i rest ih =>
    intro ci hci r hr
    by_cases hi : failed i
    · exact ih ci hci r (by simpa [lab3RedistLoop, hi] using hr)
    · by_cases hbreak : DATA_SIZE ≤ (ci + 1) * CHUNK_SIZE
      · have hrd : (lab3RedistLoop failed (i :: rest) ci).map Prod.snd = [ci] := by
          simp [lab3RedistLoop, hi, hbreak]
        rw [hrd] at hr
        have : r = ci := by simpa using hr
        rw [this]
        exact hci
      · have hrd : (lab3RedistLoop failed (i :: rest) ci).map Prod.snd
            = ci :: (lab3RedistLoop failed rest (ci + 1)).map Prod.snd := by
          simp [lab3RedistLoop, hi, hbreak]
        rw [hrd] at hr
        rcases List.mem_cons.mp hr with h | h
        · rw [h]; exact hci
        · exact ih (ci + 1) (by omega) r h

/-- C10: every `full_data[chunk_index * CHUNK_SIZE]` read of the master's
distribution and redistribution loops stays below `DATA_SIZE` whenever the
number of alive workers is at most `DATA_SIZE / CHUNK_SIZE` (= 10); this
precondition is not enforced by lab2's loops — with 11 alive workers the
initial distribution reads index `10 * CHUNK_SIZE = DATA_SIZE`, out of
bounds — while lab3's redistribution loop alone bounds `chunk_index` and
stays in bounds for every worker count and failure map. -/
theorem master_chunk_reads_bounded :
    (∀ (failed : Nat → Bool) (size : Nat), numAlive failed size ≤ DATA_SIZE / CHUNK_SIZE →
      ∀ r ∈ lab2DistReads failed size, r * CHUNK_SIZE < DATA_SIZE) ∧
    (¬ ∀ r ∈ lab2DistReads initialFailed 12, r * CHUNK_SIZE < DATA_SIZE) ∧
    (∀ (failed : Nat → Bool) (size : Nat),
      ∀ r ∈ lab3RedistReads failed size, r * CHUNK_SIZE < DATA_SIZE) := by
  refine ⟨?_, ?_, ?_⟩
  · intro failed size h r hr
    have hlt := sendLoop_reads_lt failed (workers size) 0 r hr
    have h10 : DATA_SIZE / CHUNK_SIZE = 10 := by norm_num [DATA_SIZE, CHUNK_SIZE]
    have hr9 : r ≤ 9 := by
      have : (workers size).countP (fun i => !failed i) = numAlive failed size := rfl
      omega
    calc r * CHUNK_SIZE ≤ 9 * CHUNK_SIZE := Nat.mul_le_mul_right _ hr9
      _ < DATA_SIZE := by norm_num [CHUNK_SIZE, DATA_SIZE]
  · decide
  · intro failed size r hr
    exact lab3RedistLoop_reads_inbounds failed (workers size) 0
      (by norm_num [CHUNK_SIZE, DATA_SIZE]) r hr

/-- C10 witness: with 3 alive workers (4 processes, none failed) the
precondition holds and the read at `chunk_index = 2` is in bounds; and
lab3's guarded redistribution read at `chunk_index = 0` over 12 workers is
in bounds with no precondition at all. -/
theorem master_chunk_reads_bounded_witness :
    numAlive initialFailed 4 ≤ DATA_SIZE / CHUNK_SIZE ∧
    2 ∈ lab2DistReads initialFailed 4 ∧
    2 * CHUNK_SIZE < DATA_SIZE ∧
    0 ∈ lab3RedistReads initialFailed 13 ∧
    0 * CHUNK_SIZE < DATA_SIZE :=
  ⟨by decide, by decide,
   master_chunk_reads_bounded.1 initialFailed 4 (by decide) 2 (by decide),
   by decide,
   master_chunk_reads_bounded.2.2 initialFailed 13 0 (by decide)⟩
